import Mathlib

/-!
Verification of the element-list widget (src/container/element-list/element-list.tsx):
tree projection, drag-and-drop index resolution, hover highlighting, selection and
inline-rename keyboard handling, and global listener lifecycle.

Each definition is a shallow embedding of the corresponding function in the source
file; model methods that live outside this file (the `Model.Element` accessors and
the `ViewStore` setters) are modelled from the spec where noted.
-/

namespace ElementList

/-! ## Drop-index resolution (`calculateDropIndex`, lines 538-562)

`Model.Element` provides `getContainer()` (the `Content` the element belongs to,
absent for the root) and `getIndex()` (its position in that container).  We model
the pieces of an element that `calculateDropIndex` reads: container identity and
index.  JS compares containers with `!==` (reference identity); two absent
containers compare equal under `!==`, which `Option` equality mirrors. -/

structure DropElem where
  id : String
  container : Option String
  index : Int
deriving DecidableEq, Repr

/-- Embedding of `calculateDropIndex` (element-list.tsx lines 538-562). -/
def calculateDropIndex (dragged target : DropElem) : Int :=
  let newIndex := target.index
  if dragged.container ≠ target.container then
    newIndex
  else
    let currentIndex := dragged.index
    if newIndex > currentIndex then newIndex - 1 else newIndex

/-! ## Append-style drop index (`getDropIndex` closure inside `handleDrop`, lines 274-282) -/

/-- Embedding of the `getDropIndex` closure in `handleDrop` (lines 274-282):
for a non-sibling drop the index is the drop-target content's element count,
otherwise `calculateDropIndex` on the raw target and the dragged element. -/
def getDropIndex (isSiblingDrop : Bool) (contentElements : List String)
    (dragged rawTarget : DropElem) : Int :=
  if !isSiblingDrop then contentElements.length
  else calculateDropIndex dragged rawTarget

/-! ## Global listener lifecycle (`componentDidMount` lines 36-45,
`componentWillUnmount` lines 47-57)

A listener registration is a pair of event name and handler identity;
`window.addEventListener` ignores a duplicate (event, handler) pair and
`window.removeEventListener` removes the matching pair.  In the source
`globalDropListener` and `globalDragEndListener` are the same function
(`store.unsetDraggedElement`), so both are the handler `unsetDraggedElement`. -/

def addEventListener (s : List (String × String)) (ev fn : String) : List (String × String) :=
  if (ev, fn) ∈ s then s else s ++ [(ev, fn)]

def removeEventListener (s : List (String × String)) (ev fn : String) : List (String × String) :=
  s.filter (fun p => decide (p ≠ (ev, fn)))

/-- Embedding of `componentDidMount` (lines 36-45): registers keydown, drop and
dragend listeners, where the drop and dragend listeners are the same function. -/
def componentDidMount (s : List (String × String)) : List (String × String) :=
  addEventListener
    (addEventListener
      (addEventListener s "keydown" "handleKeyDown")
      "drop" "unsetDraggedElement")
    "dragend" "unsetDraggedElement"

/-- Embedding of `componentWillUnmount` (lines 47-57): removes the drop listener,
then removes the drag-end handler from the `drop` event again (line 52 passes
`'drop'`, not `'dragend'`), then removes the keydown listener.  Both listener
fields are set at this point (mount assigned them), so the `if` guards pass. -/
def componentWillUnmount (s : List (String × String)) : List (String × String) :=
  removeEventListener
    (removeEventListener
      (removeEventListener s "drop" "unsetDraggedElement")
      "drop" "unsetDraggedElement")
    "keydown" "handleKeyDown"

/-! ## Hover highlighting (`handleDragOver`, lines 192-225)

The model state is the set of elements with their highlight flags.
`Model.Element.setHighlighted` / `setPlaceholderHighlighted` are plain per-element
flag setters (the source iterates over all elements when it wants to clear them
all, e.g. in `handleMouseOver`), modelled as an update of the matching element.
The event is abstracted to the results of the two `elementFromTarget` calls
(the target-parent resolution with `sibling := isSibling`, and the visual-target
resolution with `sibling := false`) plus the `isSibling` flag; `accepts` is the
model's capability predicate, taken as a parameter. -/

structure HElem where
  id : String
  highlighted : Bool
  placeholderHighlighted : Bool
deriving DecidableEq, Repr

/-- Modelled from the spec: the model's per-element flag setter
`Element.setHighlighted` (a plain get/set capability, §6). -/
def setHighlighted (s : List HElem) (id : String) (v : Bool) : List HElem :=
  s.map (fun e => if e.id = id then { e with highlighted := v } else e)

/-- Modelled from the spec: the model's per-element flag setter
`Element.setPlaceholderHighlighted` (a plain get/set capability, §6). -/
def setPlaceholderHighlighted (s : List HElem) (id : String) (v : Bool) : List HElem :=
  s.map (fun e => if e.id = id then { e with placeholderHighlighted := v } else e)

structure DragOverEvent where
  isSibling : Bool
  targetParent : Option String
  visualTarget : Option String

/-- Embedding of `handleDragOver` (lines 192-225).  If either resolution fails the
handler returns.  Inside one Mobx transaction: with no drag in progress it clears
the visual target's flags; with a drag in progress it returns without mutation
when the target parent rejects the dragged element, and otherwise sets the visual
target's `highlighted` to `!isSibling` and `placeholderHighlighted` to
`isSibling`. -/
def handleDragOver (accepts : String → String → Bool) (dragged : Option String)
    (s : List HElem) (ev : DragOverEvent) : List HElem :=
  match ev.targetParent, ev.visualTarget with
  | some tp, some vt =>
    match dragged with
    | none =>
      setPlaceholderHighlighted (setHighlighted s vt false) vt false
    | some d =>
      if accepts tp d then
        setPlaceholderHighlighted (setHighlighted s vt (!ev.isSibling)) vt ev.isSibling
      else
        s
  | _, _ => s

/-- The highlight-exclusivity reading of the state: every highlighted element is
the given target (so no element other than the target stays highlighted). -/
def onlyHighlighted (s : List HElem) (id : String) : Prop :=
  ∀ e ∈ s, e.highlighted = true → e.id = id

instance (s : List HElem) (id : String) : Decidable (onlyHighlighted s id) := by
  unfold onlyHighlighted; infer_instance

/-! ## Keyboard handling (`handleKeyDown`, lines 309-352)

The selection/rename store state: the elements (with current and pre-edit names),
the selected element, the name-editable (editing) element, and the rename commands
submitted to the executor.  `ViewStore.getNameEditableElement` /
`setNameEditableElement` and `Element.getName({ unedited: true })` /
`setName` live outside src/ and are modelled from the spec: the editable element
is a process-wide singleton that `setNameEditableElement` assigns or clears, and
`getName({ unedited: true })` returns the pre-edit name.  The event is abstracted
to its key code and the two origin tests the guard performs: `e.target ===
document.body`, and `this.ref.contains(target)` (false when `this.ref` is null). -/

structure RElem where
  id : String
  name : String
  uneditedName : String
deriving DecidableEq, Repr

structure SelStore where
  elements : List RElem
  selected : Option String
  editable : Option String
  commands : List (String × String)
deriving DecidableEq, Repr

structure KeyEvent where
  keyCode : Nat
  targetIsBody : Bool
  targetInWidget : Bool
deriving DecidableEq, Repr

def getName (st : SelStore) (id : String) : Option String :=
  (st.elements.find? (fun e => e.id == id)).map (fun e => e.name)

def getUneditedName (st : SelStore) (id : String) : Option String :=
  (st.elements.find? (fun e => e.id == id)).map (fun e => e.uneditedName)

def setName (st : SelStore) (id : String) (n : String) : SelStore :=
  { st with elements := st.elements.map (fun e => if e.id == id then { e with name := n } else e) }

/-- Embedding of `handleKeyDown` (lines 309-352).  Returns the new store state and
whether the event was consumed (`stopPropagation` called).  The guard skips the
handler unless the event origin is `document.body` or a node inside the widget's
root.  ENTER (13): if an element is in rename mode, submit a rename command with
its current name and leave rename mode; otherwise put the selected element into
rename mode.  ESC (27): if an element is in rename mode, read its pre-edit name,
leave rename mode, and write the pre-edit name back; no command is submitted. -/
def handleKeyDown (st : SelStore) (ev : KeyEvent) : SelStore × Bool :=
  if !ev.targetIsBody && !ev.targetInWidget then
    (st, false)
  else if ev.keyCode == 13 then
    match st.editable with
    | some id =>
      let n := (getName st id).getD ""
      ({ st with commands := st.commands ++ [(id, n)], editable := none }, true)
    | none =>
      ({ st with editable := st.selected }, true)
  else if ev.keyCode == 27 then
    match st.editable with
    | some id =>
      let n := (getUneditedName st id).getD ""
      (setName { st with editable := none } id n, true)
    | none => (st, true)
  else
    (st, false)

/-! ## Drop handling (`handleDrop`, lines 254-307)

The store state for a drop: current selection, the reparent commands submitted,
the ids of elements in the current project, and the elements added to the store
by `addElement`.  The event is abstracted to the three resolutions the handler
performs — `rawTargetElement` (`sibling := false`), `dropTargetElement` and
`dropTargetContent` (both with `sibling := isSiblingDrop`) — the dragged element,
and the `isSiblingDrop` attribute; `accepts` is again a parameter.  The initial
`handleDragEnd` call only tears down the drag-image DOM node and the local
`dragging` render flag, neither of which is part of this state. -/

structure DropStore where
  selected : Option String
  commands : List (String × String × Int)
  projectElementIds : List String
  added : List String
deriving DecidableEq, Repr

structure DropEvent where
  isSiblingDrop : Bool
  rawTarget : Option DropElem
  dropTarget : Option DropElem
  dropTargetContent : Option (String × List String)
deriving Repr

/-- Embedding of `handleDrop` (lines 254-307).  All four resolutions must succeed;
the drop target must accept the dragged element; the drop index (content length
for a non-sibling drop, `calculateDropIndex` otherwise) must not be `-1`.  Then:
if some project element has the dragged element's id, `addElement` is called;
an `ElementLocationCommand.addChild` command is submitted with the dragged
element's id, the content id and the index; and the dragged element becomes the
selected element. -/
def handleDrop (accepts : DropElem → DropElem → Bool) (dragged : Option DropElem)
    (st : DropStore) (ev : DropEvent) : DropStore :=
  match ev.rawTarget, ev.dropTarget, ev.dropTargetContent, dragged with
  | some rawT, some dropT, some (cid, celems), some d =>
    if !(accepts dropT d) then st
    else
      let index := getDropIndex ev.isSiblingDrop celems d rawT
      if index = -1 then st
      else
        let st1 :=
          if st.projectElementIds.any (fun i => i == d.id) then
            { st with added := st.added ++ [d.id] }
          else st
        { st1 with
            commands := st1.commands ++ [(d.id, cid, index)],
            selected := some d.id }
  | _, _, _, _ => st

/-! ## Tree projection (`createItemFromElement` lines 59-93,
`createItemFromSlot` lines 95-121)

The model graph behind the projection: an element carries its data (identity,
name, resolved pattern, flags) and, for each of its contents, the content's data
(identity and bound slot id) together with the content's child elements in stored
order.  `element.getContentBySlotId(slotId)` is a lookup among the element's
contents by bound slot id.  A pattern is its ordered slot list; a slot is
identity, display name and type (`Children` or a named slot). -/

inductive SlotType : Type where
  | children
  | named
deriving DecidableEq, Repr

structure PatternSlot where
  id : String
  name : String
  type : SlotType
deriving DecidableEq, Repr

structure Pattern where
  slots : List PatternSlot
deriving DecidableEq, Repr

structure ElementData where
  id : String
  name : String
  pattern : Option Pattern
  selected : Bool
  openFlag : Bool
  nameEditable : Bool
  highlighted : Bool
  placeholderHighlighted : Bool
deriving DecidableEq, Repr

structure ContentData where
  id : String
  slotId : String
deriving DecidableEq, Repr

inductive Element : Type where
  | mk (data : ElementData) (contents : List (ContentData × List Element))

def Element.data : Element → ElementData
  | .mk d _ => d

def Element.contents : Element → List (ContentData × List Element)
  | .mk _ c => c

/-- The projection output `ElementNodeProps` (lines 435-441 together with the
`ElementProps` fields set at lines 81-92 and 106-120). -/
inductive ViewNode : Type where
  | mk (active : Bool) (children : List ViewNode) (draggable : Bool)
      (dragging : Bool) (editable : Bool) (highlight : Bool)
      (highlightPlaceholder : Bool) (id : String) (title : String)
      (openFlag : Bool)

def ViewNode.active : ViewNode → Bool
  | .mk a _ _ _ _ _ _ _ _ _ => a

def ViewNode.children : ViewNode → List ViewNode
  | .mk _ c _ _ _ _ _ _ _ _ => c

def ViewNode.id : ViewNode → String
  | .mk _ _ _ _ _ _ _ i _ _ => i

def ViewNode.title : ViewNode → String
  | .mk _ _ _ _ _ _ _ _ t _ => t

def ViewNode.openFlag : ViewNode → Bool
  | .mk _ _ _ _ _ _ _ _ _ o => o

mutual
/-- Modelled from the spec: `Element.getDescendants()` (§6, and §4.1 "any strict
descendant"), absent from src/ — the strict descendants of an element: the
elements of each of its contents together with their own descendants. -/
def elementDescendants : Element → List Element
  | .mk _ contents => contentsDescendants contents

def contentsDescendants : List (ContentData × List Element) → List Element
  | [] => []
  | c :: cs => elementsWithDescendants c.2 ++ contentsDescendants cs

def elementsWithDescendants : List Element → List Element
  | [] => []
  | e :: es => e :: (elementDescendants e ++ elementsWithDescendants es)
end

mutual
/-- Embedding of `createItemFromElement` (lines 59-93).  With no resolvable
pattern the projection is absent.  The pattern's slots are partitioned into the
`Children`-type slots (the first of which is the default slot) and the named
slots; the default slot's pseudo-node contributes its children, the named slots
contribute their pseudo-nodes where defined, and the children list is the named
pseudo-nodes followed by the default slot's children.  `open` is the element's
explicit flag or-ed with whether some descendant is selected. -/
def createItemFromElement (g : Bool) (e : Element) : Option ViewNode :=
  match e with
  | .mk data contents =>
    match data.pattern with
    | none => none
    | some pat =>
      let parts := List.partition (fun s => s.type == SlotType.children) pat.slots
      let defaultSlot : Option ViewNode :=
        match parts.1.head? with
        | none => none
        | some ds => createItemFromSlot g (.mk data contents) ds
      let children : List ViewNode :=
        match defaultSlot with
        | some n => n.children
        | none => []
      let slots : List ViewNode :=
        (parts.2.map (fun s => createItemFromSlot g (.mk data contents) s)).filterMap id
      some (.mk data.selected (slots ++ children) (!data.nameEditable) g
        data.nameEditable data.highlighted data.placeholderHighlighted
        data.id data.name
        (data.openFlag ||
          (elementDescendants (.mk data contents)).any (fun d => d.data.selected)))
termination_by (sizeOf e, 3)
decreasing_by
  all_goals
    simp_wf
    apply Prod.Lex.right
    decide

/-- Embedding of `createItemFromSlot` (lines 95-121): absent when the element has
no content bound to the slot; otherwise a pseudo-node (not active, not draggable,
not editable, always open, never placeholder-highlighted, highlight mirroring the
element, identity = content id, title = slot name) whose children are the
projections of the content's elements in stored order.  The model's
`getContentBySlotId` lookup is inlined as the first-match scan `findSlotContent`
(shown equal to `List.find?` by `findSlotContent_eq`). -/
def createItemFromSlot (g : Bool) (e : Element) (slot : PatternSlot) : Option ViewNode :=
  match e with
  | .mk data contents => findSlotContent g data.highlighted slot contents
termination_by (sizeOf e, 2)
decreasing_by
  simp_wf
  apply Prod.Lex.left
  omega

/-- The content lookup of `createItemFromSlot` fused with the pseudo-node
construction: scan the element's contents for the first one bound to the slot. -/
def findSlotContent (g : Bool) (hl : Bool) (slot : PatternSlot) :
    List (ContentData × List Element) → Option ViewNode
  | [] => none
  | c :: cs =>
    if c.1.slotId == slot.id then
      some (.mk false (projectElements g c.2) false g false hl false
        c.1.id slot.name true)
    else findSlotContent g hl slot cs
termination_by cs => (sizeOf cs, 1)
decreasing_by
  · simp_wf
    apply Prod.Lex.left
    obtain ⟨cd, els⟩ := c
    simp
    omega
  · simp_wf
    apply Prod.Lex.left
    omega

/-- The `map`-then-`filter`-defined composite applied to a content's elements
(lines 108-111): project each element and keep the defined projections. -/
def projectElements (g : Bool) : List Element → List ViewNode
  | [] => []
  | e :: es =>
    match createItemFromElement g e with
    | none => projectElements g es
    | some vn => vn :: projectElements g es
termination_by es => (sizeOf es, 0)
decreasing_by
  all_goals
    simp_wf
    apply Prod.Lex.left
    omega
end

/-- The named slots of a pattern in pattern order (spec §4.1: every slot other
than the `Children`-type default slot). -/
def Pattern.namedSlots (pat : Pattern) : List PatternSlot :=
  pat.slots.filter (fun s => !(s.type == SlotType.children))

/-- Spec-side description (§4.1): the named-slot pseudo-nodes in pattern order,
for those named slots with bound content. -/
def specNamedSlotNodes (g : Bool) (e : Element) (pat : Pattern) : List ViewNode :=
  (Pattern.namedSlots pat).filterMap (fun s => createItemFromSlot g e s)

/-- Spec-side description (§4.1): the projections of the default `Children`
slot's content elements in stored order; empty when the pattern declares no
`Children` slot or the slot has no bound content. -/
def specDefaultSlotChildren (g : Bool) (e : Element) (pat : Pattern) : List ViewNode :=
  match pat.slots.find? (fun s => s.type == SlotType.children) with
  | none => []
  | some ds =>
    match e.contents.find? (fun c => c.1.slotId == ds.id) with
    | none => []
    | some c => projectElements g c.2

/-! Concrete sample model used by the projection witnesses: a root element whose
pattern declares one named slot (bound, holding one element) and one default
`Children` slot (bound, holding two elements). -/

def leafPattern : Pattern := ⟨[⟨"leaf-children", "children", SlotType.children⟩]⟩

def leafData (i : String) : ElementData :=
  ⟨i, i, some leafPattern, false, false, false, false, false⟩

def leaf (i : String) : Element := .mk (leafData i) [(⟨i ++ "-content", "leaf-children"⟩, [])]

def samplePattern : Pattern :=
  ⟨[⟨"slot-named", "header", SlotType.named⟩, ⟨"slot-children", "children", SlotType.children⟩]⟩

def sampleRootData : ElementData :=
  ⟨"root", "root", some samplePattern, false, false, false, false, false⟩

def sampleRoot : Element :=
  .mk sampleRootData
    [(⟨"content-named", "slot-named"⟩, [leaf "n0"]),
     (⟨"content-children", "slot-children"⟩, [leaf "c0", leaf "c1"])]

/-- Sample model for the no-`Children`-slot case: a pattern declaring only one
named slot, with bound content. -/
def namedOnlyPattern : Pattern := ⟨[⟨"slot-named", "header", SlotType.named⟩]⟩

def namedOnlyRoot : Element :=
  .mk ⟨"root2", "root2", some namedOnlyPattern, false, false, false, false, false⟩
    [(⟨"content-named2", "slot-named"⟩, [leaf "m0"])]

/-- Sample model for the auto-expand witness: a closed root with a selected
grandchild. -/
def selectedLeaf : Element :=
  .mk ⟨"sel", "sel", some leafPattern, true, false, false, false, false⟩
    [(⟨"sel-content", "leaf-children"⟩, [])]

def openWitnessRoot : Element :=
  .mk ⟨"root3", "root3", some leafPattern, false, false, false, false, false⟩
    [(⟨"root3-content", "leaf-children"⟩,
      [Element.mk (leafData "mid")
        [(⟨"mid-content", "leaf-children"⟩, [selectedLeaf])]])]

end ElementList

namespace ElementList

/-- Claim C1: for a drop resolved relative to a sibling target, `calculateDropIndex`
returns the target's index when the containers differ; within one container it
returns `target.index - 1` when `target.index > dragged.index` and `target.index`
otherwise. -/
theorem calculateDropIndex_cases (dragged target : DropElem) :
    (dragged.container ≠ target.container →
      calculateDropIndex dragged target = target.index) ∧
    (dragged.container = target.container →
      (target.index > dragged.index →
        calculateDropIndex dragged target = target.index - 1) ∧
      (¬ target.index > dragged.index →
        calculateDropIndex dragged target = target.index)) := by
  unfold calculateDropIndex
  constructor
  · intro h
    simp [h]
  · intro h
    constructor
    · intro hgt
      simp [h, hgt]
    · intro hle
      simp [h, hle]

/-- Claim C1 witness: the spec's worked example, dragged at index 3 and target at
index 5 of the same container, resolves to index 4. -/
theorem calculateDropIndex_cases_witness :
    calculateDropIndex ⟨"d", some "c", 3⟩ ⟨"t", some "c", 5⟩ = 5 - 1 :=
  (calculateDropIndex_cases ⟨"d", some "c", 3⟩ ⟨"t", some "c", 5⟩).2 rfl |>.1 (by decide)

/-- Claim C5 (code evidence): mounting the widget on an empty listener set and then
unmounting does not restore the empty set — the `dragend` listener registered on
mount is never removed (line 52 removes from `drop` instead), so it leaks. -/
theorem unmount_leaves_dragend_listener :
    componentWillUnmount (componentDidMount []) = [("dragend", "unsetDraggedElement")] ∧
    componentWillUnmount (componentDidMount []) ≠ [] := by
  constructor <;> decide

/-- Claim C6: for a drop that is not relative to a sibling, the resolved insertion
index is the drop-target content's current element count, and the result does not
depend on the dragged or raw-target elements (the pairwise `calculateDropIndex`
computation is not consulted). -/
theorem getDropIndex_append (contentElements : List String)
    (dragged rawTarget dragged2 rawTarget2 : DropElem) :
    getDropIndex false contentElements dragged rawTarget = contentElements.length ∧
    getDropIndex false contentElements dragged rawTarget =
      getDropIndex false contentElements dragged2 rawTarget2 := by
  constructor <;> simp [getDropIndex]

/-- Claim C3 counterexample: with a drag in progress and an always-accepting
target parent, two sequential accepted hovers over the distinct targets `a` and
then `b` leave `a` highlighted as well — the handler does not clear other
elements' highlights, so it is false that only the most recently hovered target
is highlighted. -/
theorem handleDragOver_not_exclusive :
    ¬ onlyHighlighted
      (handleDragOver (fun _ _ => true) (some "d")
        (handleDragOver (fun _ _ => true) (some "d")
          [⟨"a", false, false⟩, ⟨"b", false, false⟩]
          ⟨false, some "p", some "a"⟩)
        ⟨false, some "p", some "b"⟩) "b" := by
  decide

/-- Claim C3 amended: on an accepted hover (drag in progress, target parent
accepts the dragged element), the handler sets the hovered visual target's
highlighted flag to NOT siblingMode and its placeholder-highlight flag to
siblingMode within the transaction, and leaves every other element's flags
unchanged — it does not clear other elements' highlights. -/
theorem handleDragOver_accept (accepts : String → String → Bool) (d : String)
    (s : List HElem) (sib : Bool) (tp vt : String)
    (hacc : accepts tp d = true) :
    handleDragOver accepts (some d) s ⟨sib, some tp, some vt⟩ =
      s.map (fun e =>
        if e.id = vt then
          { e with highlighted := !sib, placeholderHighlighted := sib }
        else e) := by
  unfold handleDragOver setHighlighted setPlaceholderHighlighted
  simp only [hacc, if_true, List.map_map]
  congr 1
  funext e
  by_cases h : e.id = vt <;> simp [h]

/-- Claim C3 amended witness: a concrete accepted non-sibling hover highlights the
hovered target and leaves the other element untouched. -/
theorem handleDragOver_accept_witness :
    handleDragOver (fun _ _ => true) (some "d")
        [⟨"a", false, false⟩, ⟨"b", true, false⟩] ⟨false, some "p", some "a"⟩ =
      [⟨"a", true, false⟩, ⟨"b", true, false⟩] := by
  rw [handleDragOver_accept (fun _ _ => true) "d"
    [⟨"a", false, false⟩, ⟨"b", true, false⟩] false "p" "a" rfl]
  decide

/-- Auxiliary: `find?` commutes with mapping a function that preserves the
predicate. -/
theorem find?_map_of_pred_preserved {α : Type} (p : α → Bool) (f : α → α)
    (l : List α) (hp : ∀ a, p (f a) = p a) :
    (l.map f).find? p = (l.find? p).map f := by
  induction l with
  | nil => rfl
  | cons a l ih =>
    by_cases h : p a = true
    · simp [List.find?_cons, hp, h]
    · simp only [Bool.not_eq_true] at h
      simp [List.find?_cons, hp, h, ih]

/-- Claim C7: an ESC key event (passing the origin guard) while an element is in
rename mode reverts the element's name to its pre-edit value, leaves rename mode
with the same element still selected, and submits no command to the executor. -/
theorem handleKeyDown_escape (st : SelStore) (ev : KeyEvent) (id : String) (el : RElem)
    (hguard : ev.targetIsBody = true ∨ ev.targetInWidget = true)
    (hcode : ev.keyCode = 27)
    (hed : st.editable = some id)
    (hsel : st.selected = some id)
    (hfind : st.elements.find? (fun e => e.id == id) = some el) :
    getName (handleKeyDown st ev).1 id = some el.uneditedName ∧
    (handleKeyDown st ev).1.editable = none ∧
    (handleKeyDown st ev).1.selected = some id ∧
    (handleKeyDown st ev).1.commands = st.commands := by
  have hpel : (el.id == id) = true := by simpa using List.find?_some hfind
  have hguard' : (!ev.targetIsBody && !ev.targetInWidget) = false := by
    rcases hguard with h | h <;> simp [h]
  have hstep : handleKeyDown st ev =
      (setName { st with editable := none } id ((getUneditedName st id).getD ""), true) := by
    unfold handleKeyDown
    rw [hguard', hcode, hed]
    simp
  rw [hstep]
  have hun : getUneditedName st id = some el.uneditedName := by
    unfold getUneditedName
    rw [hfind]
    rfl
  refine ⟨?_, rfl, by simpa using hsel, rfl⟩
  unfold getName setName
  simp only
  rw [find?_map_of_pred_preserved (fun e => e.id == id)
    (fun e => if e.id == id then { e with name := (getUneditedName st id).getD "" } else e)
    st.elements (by intro a; by_cases h : (a.id == id) = true <;> simp [h])]
  rw [hfind]
  have hid : el.id = id := by simpa using hpel
  simp [hid, hun]

/-- Claim C7 witness: a concrete ESC press during rename restores the pre-edit
name, returns to Selected on the same element, and leaves the command log empty. -/
theorem handleKeyDown_escape_witness :
    getName (handleKeyDown ⟨[⟨"e", "edited", "orig"⟩], some "e", some "e", []⟩
        ⟨27, true, false⟩).1 "e" = some "orig" ∧
    (handleKeyDown ⟨[⟨"e", "edited", "orig"⟩], some "e", some "e", []⟩
        ⟨27, true, false⟩).1.editable = none ∧
    (handleKeyDown ⟨[⟨"e", "edited", "orig"⟩], some "e", some "e", []⟩
        ⟨27, true, false⟩).1.selected = some "e" ∧
    (handleKeyDown ⟨[⟨"e", "edited", "orig"⟩], some "e", some "e", []⟩
        ⟨27, true, false⟩).1.commands = [] :=
  handleKeyDown_escape ⟨[⟨"e", "edited", "orig"⟩], some "e", some "e", []⟩
    ⟨27, true, false⟩ "e" ⟨"e", "edited", "orig"⟩
    (Or.inl rfl) rfl rfl rfl (by decide)

/-- Claim C8: a key event whose origin is neither the document body nor a node
inside the widget's root is not processed — the handler returns with the store
unchanged and the event not consumed. -/
theorem handleKeyDown_scope (st : SelStore) (ev : KeyEvent)
    (hb : ev.targetIsBody = false) (hw : ev.targetInWidget = false) :
    handleKeyDown st ev = (st, false) := by
  unfold handleKeyDown
  rw [hb, hw]
  simp

/-- Claim C8 witness: a concrete ENTER key event originating outside the widget
and not on the body leaves a store with an editable element untouched. -/
theorem handleKeyDown_scope_witness :
    handleKeyDown ⟨[⟨"e", "n", "u"⟩], some "e", some "e", []⟩ ⟨13, false, false⟩ =
      (⟨[⟨"e", "n", "u"⟩], some "e", some "e", []⟩, false) :=
  handleKeyDown_scope ⟨[⟨"e", "n", "u"⟩], some "e", some "e", []⟩
    ⟨13, false, false⟩ rfl rfl

/-- Claim C9: when every guard of `handleDrop` passes (all three resolutions
succeed, a drag is in progress, the drop target accepts the dragged element, and
the resolved index is not -1), the reparent command is submitted and the dragged
element becomes the current selection, superseding any prior selection. -/
theorem handleDrop_selects (accepts : DropElem → DropElem → Bool)
    (dragged : Option DropElem) (st : DropStore) (ev : DropEvent)
    (rawT dropT d : DropElem) (cid : String) (celems : List String)
    (h1 : ev.rawTarget = some rawT) (h2 : ev.dropTarget = some dropT)
    (h3 : ev.dropTargetContent = some (cid, celems)) (h4 : dragged = some d)
    (hacc : accepts dropT d = true)
    (hidx : getDropIndex ev.isSiblingDrop celems d rawT ≠ -1) :
    (handleDrop accepts dragged st ev).selected = some d.id ∧
    (handleDrop accepts dragged st ev).commands =
      st.commands ++ [(d.id, cid, getDropIndex ev.isSiblingDrop celems d rawT)] := by
  unfold handleDrop
  rw [h1, h2, h3, h4]
  dsimp only
  rw [if_neg (by simp [hacc]), if_neg hidx]
  split <;> exact ⟨rfl, rfl⟩

/-- Auxiliary: the head of a filtered list is the first element satisfying the
predicate. -/
theorem filter_head?_eq_find? {α : Type} (p : α → Bool) (l : List α) :
    (l.filter p).head? = l.find? p := by
  induction l with
  | nil => rfl
  | cons a l ih =>
    by_cases h : p a = true
    · simp [List.filter_cons, List.find?_cons, h]
    · simp only [Bool.not_eq_true] at h
      simp [List.filter_cons, List.find?_cons, h, ih]

/-- Auxiliary: the fused content scan is the `find?` lookup followed by the
pseudo-node construction. -/
theorem findSlotContent_eq (g hl : Bool) (slot : PatternSlot)
    (cs : List (ContentData × List Element)) :
    findSlotContent g hl slot cs =
      (cs.find? (fun c => c.1.slotId == slot.id)).map
        (fun c => ViewNode.mk false (projectElements g c.2) false g false hl false
          c.1.id slot.name true) := by
  induction cs with
  | nil => simp [findSlotContent]
  | cons c cs ih =>
    by_cases h : (c.1.slotId == slot.id) = true
    · simp [findSlotContent, List.find?_cons, h]
    · simp only [Bool.not_eq_true] at h
      simp [findSlotContent, List.find?_cons, h, ih]

/-- Auxiliary: `createItemFromSlot` as a `find?` over the element's contents. -/
theorem createItemFromSlot_eq (g : Bool) (e : Element) (slot : PatternSlot) :
    createItemFromSlot g e slot =
      (e.contents.find? (fun c => c.1.slotId == slot.id)).map
        (fun c => ViewNode.mk false (projectElements g c.2) false g false
          e.data.highlighted false c.1.id slot.name true) := by
  obtain ⟨data, contents⟩ := e
  rw [createItemFromSlot.eq_def]
  dsimp only [Element.contents, Element.data]
  exact findSlotContent_eq g data.highlighted slot contents

/-- Auxiliary: the one-step unfolding of `createItemFromElement` for an element
with a resolvable pattern, with the children list written as the spec's
decomposition. -/
theorem createItemFromElement_eq (g : Bool) (e : Element) (pat : Pattern)
    (hpat : e.data.pattern = some pat) :
    createItemFromElement g e = some (ViewNode.mk e.data.selected
      (specNamedSlotNodes g e pat ++ specDefaultSlotChildren g e pat)
      (!e.data.nameEditable) g e.data.nameEditable e.data.highlighted
      e.data.placeholderHighlighted e.data.id e.data.name
      (e.data.openFlag ||
        (elementDescendants e).any (fun d => d.data.selected))) := by
  obtain ⟨data, contents⟩ := e
  rw [Element.data] at hpat
  rw [createItemFromElement.eq_def]
  dsimp only [Element.data, Element.contents]
  rw [hpat]
  dsimp only
  rw [List.partition_eq_filter_filter]
  dsimp only
  simp only [Function.comp_def]
  rw [filter_head?_eq_find?]
  have hnamed :
      (List.filterMap id
        ((List.filter (fun s => !(s.type == SlotType.children)) pat.slots).map
          (fun s => createItemFromSlot g (Element.mk data contents) s))) =
      specNamedSlotNodes g (Element.mk data contents) pat := by
    rw [List.filterMap_map]
    rfl
  rw [hnamed]
  unfold specDefaultSlotChildren
  dsimp only [Element.data, Element.contents]
  rcases hds : List.find? (fun s => s.type == SlotType.children) pat.slots with _ | ds <;>
    rw [hds]
  dsimp only
  rw [createItemFromSlot_eq]
  dsimp only [Element.contents, Element.data]
  rcases hc : List.find? (fun c => c.1.slotId == ds.id) contents with _ | c <;> rw [hc] <;> rfl

mutual
/-- Auxiliary: a strict descendant of an element is structurally smaller, so in
particular no element is its own descendant. -/
theorem sizeOf_lt_of_mem_elemDesc (e : Element) (d : Element)
    (h : d ∈ elementDescendants e) : sizeOf d < sizeOf e := by
  obtain ⟨data, contents⟩ := e
  rw [elementDescendants] at h
  have h2 := sizeOf_lt_of_mem_contDesc contents d h
  simp only [Element.mk.sizeOf_spec]
  omega

theorem sizeOf_lt_of_mem_contDesc (cs : List (ContentData × List Element)) (d : Element)
    (h : d ∈ contentsDescendants cs) : sizeOf d < sizeOf cs := by
  rcases cs with _ | ⟨c, cs⟩
  · simp [contentsDescendants] at h
  · simp only [contentsDescendants, List.mem_append] at h
    rcases h with h1 | h2
    · have := sizeOf_lt_of_mem_elemsWD c.2 d h1
      obtain ⟨cd, els⟩ := c
      simp only [List.cons.sizeOf_spec, Prod.mk.sizeOf_spec] at *
      omega
    · have := sizeOf_lt_of_mem_contDesc cs d h2
      simp only [List.cons.sizeOf_spec]
      omega

theorem sizeOf_lt_of_mem_elemsWD (es : List Element) (d : Element)
    (h : d ∈ elementsWithDescendants es) : sizeOf d < sizeOf es := by
  rcases es with _ | ⟨e, es⟩
  · simp [elementsWithDescendants] at h
  · simp only [elementsWithDescendants, List.mem_cons, List.mem_append] at h
    rcases h with rfl | h1 | h2
    · simp only [List.cons.sizeOf_spec]
      omega
    · have := sizeOf_lt_of_mem_elemDesc e d h1
      simp only [List.cons.sizeOf_spec]
      omega
    · have := sizeOf_lt_of_mem_elemsWD es d h2
      simp only [List.cons.sizeOf_spec]
      omega
end

/-- Claim C2: for an element with a resolvable pattern, the projected node's
children list is exactly the named-slot pseudo-nodes in pattern order followed by
the projections of the default Children slot's elements in stored order. -/
theorem createItemFromElement_children_order (g : Bool) (e : Element) (pat : Pattern)
    (hpat : e.data.pattern = some pat) :
    ∃ vn, createItemFromElement g e = some vn ∧
      vn.children = specNamedSlotNodes g e pat ++ specDefaultSlotChildren g e pat :=
  ⟨_, createItemFromElement_eq g e pat hpat, by rw [ViewNode.children]⟩

/-- Claim C2 witness: the sample element with one named slot (holding one
element) and a default slot (holding two) projects with the pseudo-node first and
the default children after. -/
theorem createItemFromElement_children_order_witness :
    ∃ vn, createItemFromElement true sampleRoot = some vn ∧
      vn.children = specNamedSlotNodes true sampleRoot samplePattern ++
        specDefaultSlotChildren true sampleRoot samplePattern :=
  createItemFromElement_children_order true sampleRoot samplePattern rfl

/-- Claim C4: the projected node's open flag is true iff the element's explicit
open flag is set or some strict descendant is selected; the descendant scan never
includes the element itself. -/
theorem createItemFromElement_open (g : Bool) (e : Element) (pat : Pattern)
    (hpat : e.data.pattern = some pat) :
    ∃ vn, createItemFromElement g e = some vn ∧
      (vn.openFlag = true ↔
        (e.data.openFlag = true ∨ ∃ d ∈ elementDescendants e, d.data.selected = true)) ∧
      e ∉ elementDescendants e := by
  refine ⟨_, createItemFromElement_eq g e pat hpat, ?_, ?_⟩
  · rw [ViewNode.openFlag]
    simp [List.any_eq_true]
  · intro hmem
    have := sizeOf_lt_of_mem_elemDesc e e hmem
    omega

/-- Claim C4 witness: a root whose explicit open flag is false but whose
grandchild is selected. -/
theorem createItemFromElement_open_witness :
    ∃ vn, createItemFromElement true openWitnessRoot = some vn ∧
      (vn.openFlag = true ↔
        (openWitnessRoot.data.openFlag = true ∨
          ∃ d ∈ elementDescendants openWitnessRoot, d.data.selected = true)) ∧
      openWitnessRoot ∉ elementDescendants openWitnessRoot :=
  createItemFromElement_open true openWitnessRoot leafPattern rfl

/-- Claim C10: for an element whose pattern declares no Children-type slot,
projection still succeeds and the children list is exactly the named-slot
pseudo-nodes — the default-slot contribution is empty. -/
theorem createItemFromElement_no_children_slot (g : Bool) (e : Element) (pat : Pattern)
    (hpat : e.data.pattern = some pat)
    (hnone : ∀ s ∈ pat.slots, s.type ≠ SlotType.children) :
    ∃ vn, createItemFromElement g e = some vn ∧
      vn.children = specNamedSlotNodes g e pat ∧
      specDefaultSlotChildren g e pat = [] := by
  have hfind : pat.slots.find? (fun s => s.type == SlotType.children) = none := by
    rw [List.find?_eq_none]
    intro s hs
    simpa using hnone s hs
  have hdef : specDefaultSlotChildren g e pat = [] := by
    unfold specDefaultSlotChildren
    rw [hfind]
  refine ⟨_, createItemFromElement_eq g e pat hpat, ?_, hdef⟩
  rw [ViewNode.children, hdef, List.append_nil]

/-- Claim C10 witness: the sample element whose pattern has only one named slot
projects successfully, its children being just that slot's pseudo-node. -/
theorem createItemFromElement_no_children_slot_witness :
    ∃ vn, createItemFromElement true namedOnlyRoot = some vn ∧
      vn.children = specNamedSlotNodes true namedOnlyRoot namedOnlyPattern ∧
      specDefaultSlotChildren true namedOnlyRoot namedOnlyPattern = [] :=
  createItemFromElement_no_children_slot true namedOnlyRoot namedOnlyPattern rfl
    (by decide)

/-- Claim C9 witness: a concrete guarded drop appends the reparent command and
selects the dropped element, replacing the prior selection. -/
theorem handleDrop_selects_witness :
    (handleDrop (fun _ _ => true) (some ⟨"d", some "a", 0⟩)
        ⟨some "prior", [], [], []⟩
        ⟨false, some ⟨"t", some "b", 1⟩, some ⟨"t", some "b", 1⟩,
          some ("content", ["x", "y"])⟩).selected = some "d" ∧
    (handleDrop (fun _ _ => true) (some ⟨"d", some "a", 0⟩)
        ⟨some "prior", [], [], []⟩
        ⟨false, some ⟨"t", some "b", 1⟩, some ⟨"t", some "b", 1⟩,
          some ("content", ["x", "y"])⟩).commands = [] ++ [("d", "content", 2)] :=
  handleDrop_selects (fun _ _ => true) (some ⟨"d", some "a", 0⟩)
    ⟨some "prior", [], [], []⟩
    ⟨false, some ⟨"t", some "b", 1⟩, some ⟨"t", some "b", 1⟩,
      some ("content", ["x", "y"])⟩
    ⟨"t", some "b", 1⟩ ⟨"t", some "b", 1⟩ ⟨"d", some "a", 0⟩ "content" ["x", "y"]
    rfl rfl rfl rfl rfl (by decide)

end ElementList
